import Mathlib

/-!
Verification of the ai-baby-monitor frame pipeline.

This file gives a shallow embedding, in Lean 4, of the parts of the
ai-baby-monitor repository that the verified properties talk about:

* the `Frame` data model and its Redis wire format
  (`src/ai_baby_monitor/stream/camera_stream.py`,
   `src/ai_baby_monitor/stream/redis_stream.py`);
* the Redis stream model used by `RedisStreamHandler`
  (`xadd` with exact trimming, `xrevrange`, `get_latest_entries`,
   `get_latest_frames`);
* the inference client `Watcher` (`src/ai_baby_monitor/watcher/watcher.py`
  and `base_prompt.py`): prompt construction, `process_frames`,
  `_calculate_fps`;
* one round of the orchestrator loop (`scripts/run_watcher.py`);
* the awareness-level update of the legacy `Watcher.watch` loop
  (`ai_baby_monitor/watcher.py`), including the dynamic (Python-level)
  semantics of `max` over `Enum` members.

Machine integers are modelled as `Nat`/`Int`; byte strings as `List UInt8`;
Python `datetime` values as a seven-field Gregorian record with the exact
`isoformat`/`fromisoformat` round trip implemented over character lists;
fallible code returns `Option`/`Except`.  Time differences are modelled in
exact integer microseconds (a Python `timedelta` is exact microseconds, so
`total_seconds()` is the rational `Δμs / 10^6`; arithmetic on it is carried
out exactly over `Int`).
-/

namespace ABM

/-- The `AwarenessLevel` enum.  The current `watcher/watcher.py` declares it
as a `str` enum with values `"LOW"`, `"MEDIUM"`, `"HIGH"`; the legacy
`ai_baby_monitor/watcher.py` declares it as a plain `Enum` with values
`1`, `2`, `3`. -/
inductive AwarenessLevel where
  | LOW
  | MEDIUM
  | HIGH
deriving DecidableEq

/-- String value of the current (str-enum) `AwarenessLevel`. -/
def awStr : AwarenessLevel → String
  | .LOW => "LOW"
  | .MEDIUM => "MEDIUM"
  | .HIGH => "HIGH"

/-- Integer value of the legacy (plain-Enum) `AwarenessLevel` (LOW = 1,
MEDIUM = 2, HIGH = 3). -/
def awValue : AwarenessLevel → Nat
  | .LOW => 1
  | .MEDIUM => 2
  | .HIGH => 3

/-! ## Decimal digit rendering and parsing

Helpers shared by the model of `datetime.isoformat` /
`datetime.fromisoformat`, of `str(int)` and of `int(str)`. -/

/-- The ASCII character of a decimal digit (`0 ≤ n ≤ 9`; larger inputs,
which never occur, clamp to `'9'`). -/
def digitChar : Nat → Char
  | 0 => '0'
  | 1 => '1'
  | 2 => '2'
  | 3 => '3'
  | 4 => '4'
  | 5 => '5'
  | 6 => '6'
  | 7 => '7'
  | 8 => '8'
  | _ => '9'

/-- Numeric value of an ASCII digit character. -/
def digitVal (c : Char) : Nat := c.toNat - 48

/-- Fixed-width zero-padded decimal rendering (`"%04d"` and friends),
most significant digit first. -/
def renderPad : Nat → Nat → List Char
  | 0, _ => []
  | w + 1, n => digitChar (n / 10 ^ w) :: renderPad w (n % 10 ^ w)

/-- Parse exactly `w` decimal digits, accumulating into `acc`; fails if a
non-digit is hit or the input is too short. -/
def parseDigits : Nat → Nat → List Char → Option (Nat × List Char)
  | 0, acc, s => some (acc, s)
  | w + 1, acc, c :: s =>
      if c.isDigit then parseDigits w (acc * 10 + digitVal c) s else none
  | _ + 1, _, [] => none

/-- Variable-width decimal rendering of a natural number (the digits of
Python `str(n)`), driven by a structural fuel so that it reduces in the
kernel.  The fuel is always at least the number of digits when called via
`natToChars`. -/
def natToCharsAux : Nat → Nat → List Char
  | 0, n => [digitChar n]
  | fuel + 1, n =>
      if n < 10 then [digitChar n]
      else natToCharsAux fuel (n / 10) ++ [digitChar (n % 10)]

/-- The digits of Python `str(n)` for a natural number `n`. -/
def natToChars (n : Nat) : List Char := natToCharsAux n n

/-- Python `str(n)` for a natural number `n`. -/
def natToString (n : Nat) : String := String.mk (natToChars n)

/-- Left fold of decimal digits, the core of the model of Python
`int(text)`; fails on any non-digit character. -/
def parseNatAux : Nat → List Char → Option Nat
  | acc, [] => some acc
  | acc, c :: r => if c.isDigit then parseNatAux (acc * 10 + digitVal c) r else none

/-- Model of Python `int(text)` on the texts this pipeline produces
(non-negative decimal literals): fails on the empty string and on any
non-digit character (`int` raises `ValueError` there, which
`deserialize_frame` catches). -/
def pyIntNat (s : String) : Option Nat :=
  match s.data with
  | [] => none
  | l => parseNatAux 0 l

/-! ## The `datetime` model

`Frame.timestamp` is a Python `datetime.datetime` (naive, microsecond
precision).  `serialize_frame` stores `timestamp.isoformat()` and
`deserialize_frame` recovers it with `datetime.fromisoformat`. -/

/-- A Python naive `datetime`: Gregorian calendar fields plus microseconds. -/
structure DateTime where
  year : Nat
  month : Nat
  day : Nat
  hour : Nat
  minute : Nat
  second : Nat
  usec : Nat
deriving DecidableEq

/-- Leap-year test of the Gregorian calendar (Python `calendar.isleap`). -/
def isLeapYear (y : Nat) : Bool :=
  y % 4 == 0 && (y % 100 != 0 || y % 400 == 0)

/-- Days in a month of a given year (Python `calendar.monthrange`). -/
def daysInMonth (y m : Nat) : Nat :=
  if m == 2 then (if isLeapYear y then 29 else 28)
  else [0, 31, 0, 31, 30, 31, 30, 31, 31, 30, 31, 30, 31].getD m 0

/-- The validity invariant `datetime.datetime` enforces on construction
(`MINYEAR ≤ year ≤ MAXYEAR`, month, per-month day, time-of-day and
microsecond ranges). -/
def dtValid (d : DateTime) : Prop :=
  1 ≤ d.year ∧ d.year ≤ 9999 ∧ 1 ≤ d.month ∧ d.month ≤ 12 ∧
    1 ≤ d.day ∧ d.day ≤ daysInMonth d.year d.month ∧
    d.hour ≤ 23 ∧ d.minute ≤ 59 ∧ d.second ≤ 59 ∧ d.usec ≤ 999999

instance (d : DateTime) : Decidable (dtValid d) := by
  unfold dtValid; infer_instance

/-- Cumulative days before month `m` in a non-leap year
(`datetime._days_before_month` without the leap correction). -/
def daysBeforeMonth (m : Nat) : Nat :=
  [0, 0, 31, 59, 90, 120, 151, 181, 212, 243, 273, 304, 334].getD m 0

/-- Proleptic-Gregorian ordinal of a date, with day 1 = 0001-01-01
(CPython `datetime._ymd2ord`). -/
def toOrdinal (d : DateTime) : Nat :=
  let y := d.year - 1
  365 * y + y / 4 - y / 100 + y / 400 + daysBeforeMonth d.month +
    (if 2 < d.month && isLeapYear d.year then 1 else 0) + d.day

/-- Microseconds of a `datetime` from the calendar origin; differences of
this quantity are exactly the `timedelta` between two datetimes in
microseconds. -/
def toMicro (d : DateTime) : Int :=
  ((toOrdinal d : Int) * 86400 + (d.hour : Int) * 3600 + (d.minute : Int) * 60 +
      (d.second : Int)) * 1000000 + (d.usec : Int)

/-- The character list of `datetime.isoformat()`:
`YYYY-MM-DDTHH:MM:SS[.ffffff]`, the microsecond part printed exactly when
nonzero (timespec `auto`). -/
def isoChars (d : DateTime) : List Char :=
  renderPad 4 d.year ++ '-' ::
    (renderPad 2 d.month ++ '-' ::
      (renderPad 2 d.day ++ 'T' ::
        (renderPad 2 d.hour ++ ':' ::
          (renderPad 2 d.minute ++ ':' ::
            (renderPad 2 d.second ++
              (if d.usec = 0 then [] else '.' :: renderPad 6 d.usec))))))

/-- `datetime.isoformat()`. -/
def isoformat (d : DateTime) : String := String.mk (isoChars d)

/-- Consume one expected character. -/
def expectChar (c : Char) : List Char → Option (List Char)
  | x :: r => if x = c then some r else none
  | [] => none

/-- Range-validate parsed fields, as the `datetime` constructor does inside
`fromisoformat`; out-of-range fields raise `ValueError` there, i.e. fail. -/
def mkValidated (y mo da hh mi ss us : Nat) : Option DateTime :=
  let d : DateTime := ⟨y, mo, da, hh, mi, ss, us⟩
  if dtValid d then some d else none

/-- Parser for the `isoformat` output grammar
`YYYY-MM-DDTHH:MM:SS[.ffffff]` (the shapes this pipeline writes), with the
constructor's range validation; any malformed input fails, modelling the
`ValueError` that `deserialize_frame` catches. -/
def parseIso (l : List Char) : Option DateTime :=
  match parseDigits 4 0 l with
  | none => none
  | some (y, r1) =>
    match expectChar '-' r1 with
    | none => none
    | some r2 =>
      match parseDigits 2 0 r2 with
      | none => none
      | some (mo, r3) =>
        match expectChar '-' r3 with
        | none => none
        | some r4 =>
          match parseDigits 2 0 r4 with
          | none => none
          | some (da, r5) =>
            match expectChar 'T' r5 with
            | none => none
            | some r6 =>
              match parseDigits 2 0 r6 with
              | none => none
              | some (hh, r7) =>
                match expectChar ':' r7 with
                | none => none
                | some r8 =>
                  match parseDigits 2 0 r8 with
                  | none => none
                  | some (mi, r9) =>
                    match expectChar ':' r9 with
                    | none => none
                    | some r10 =>
                      match parseDigits 2 0 r10 with
                      | none => none
                      | some (ss, r11) =>
                        match r11 with
                        | [] => mkValidated y mo da hh mi ss 0
                        | _ =>
                          match expectChar '.' r11 with
                          | none => none
                          | some r12 =>
                            match parseDigits 6 0 r12 with
                            | none => none
                            | some (us, r13) =>
                              match r13 with
                              | [] => mkValidated y mo da hh mi ss us
                              | _ => none

/-- `datetime.fromisoformat` on the strings this pipeline handles. -/
def fromisoformat (s : String) : Option DateTime := parseIso s.data

/-- A captured frame (`camera_stream.py`): JPEG payload bytes, capture
timestamp, per-stream index. -/
structure Frame where
  frame_data : List UInt8
  timestamp : DateTime
  frame_idx : Nat
deriving DecidableEq

/-! ## Serialization (`RedisStreamHandler.serialize_frame` / `deserialize_frame`)

`serialize_frame` builds a Python dict with a bytes value, a str value and
an int value; the Redis client encodes the str/int values to bytes on the
wire, and everything read back from Redis is byte-typed.  A wire value is
modelled as either binary data or (the decoded form of) UTF-8 text; a
value whose bytes do not decode as text is `binary`, so `asText` on it
fails exactly where `.decode("utf-8")` (or `int()`) would raise. -/

/-- A value of the dict built by `serialize_frame`, before wire encoding. -/
inductive SerVal where
  | bytes (b : List UInt8)
  | str (s : String)
  | int (n : Nat)
deriving DecidableEq

/-- A byte-typed value as read back from Redis. -/
inductive WireVal where
  | binary (b : List UInt8)
  | text (s : String)
deriving DecidableEq

/-- `serialize_frame`: the field map
`{"frame_bytes": frame.frame_data.tobytes(), "timestamp":
frame.timestamp.isoformat(), "frame_idx": frame.frame_idx}`. -/
def serialize_frame (f : Frame) : List (String × SerVal) :=
  [("frame_bytes", SerVal.bytes f.frame_data),
   ("timestamp", SerVal.str (isoformat f.timestamp)),
   ("frame_idx", SerVal.int f.frame_idx)]

/-- Wire encoding done by the Redis client: bytes pass through, str is
UTF-8 encoded, int is sent as `str(int)`. -/
def encodeSerVal : SerVal → WireVal
  | .bytes b => .binary b
  | .str s => .text s
  | .int n => .text (natToString n)

/-- The field map as it comes back from Redis (byte-typed keys and
values). -/
def wireify (d : List (String × SerVal)) : List (String × WireVal) :=
  d.map (fun kv => (kv.1, encodeSerVal kv.2))

/-- Raw bytes of a wire value (`np.frombuffer` accepts any bytes). -/
def asBytes : WireVal → List UInt8
  | .binary b => b
  | .text s => s.toUTF8.toList

/-- Decoded text of a wire value; fails on non-text bytes, where Python
`.decode("utf-8")` or `int()` would raise (caught by the caller). -/
def asText : WireVal → Option String
  | .binary _ => none
  | .text s => some s

/-- `RedisStreamHandler.deserialize_frame`: read `frame_bytes`, decode and
parse `timestamp`, parse `frame_idx`; the whole body is wrapped in
`try/except`, so a missing field (`KeyError`), a non-text value
(`UnicodeDecodeError`) or an unparsable timestamp/index (`ValueError`)
makes it log and return `None` rather than raise. -/
def deserialize_frame (d : List (String × WireVal)) : Option Frame :=
  match List.lookup "frame_bytes" d with
  | none => none
  | some vb =>
    match List.lookup "timestamp" d with
    | none => none
    | some vt =>
      match asText vt with
      | none => none
      | some ts =>
        match fromisoformat ts with
        | none => none
        | some t =>
          match List.lookup "frame_idx" d with
          | none => none
          | some vi =>
            match asText vi with
            | none => none
            | some si =>
              match pyIntNat si with
              | none => none
              | some i => some ⟨asBytes vb, t, i⟩

/-! ## The Redis stream model

A stream is a list of `(entry_id, field map)` pairs in append order; Redis
assigns strictly increasing entry ids.  `XADD ... MAXLEN maxlen` (exact,
`approximate=False`) appends and atomically evicts the oldest entries so
that the length never exceeds `maxlen`.  `XREVRANGE + min COUNT count`
returns the newest `count` entries with id ≥ min, newest first. -/

/-- `XADD` with exact trimming: append, then atomically drop the oldest
entries down to `maxlen`. -/
def xaddTrimExact {α : Type} (entries : List (Nat × α)) (nid : Nat) (d : α)
    (maxlen : Nat) : List (Nat × α) :=
  let e2 := entries ++ [(nid, d)]
  e2.drop (e2.length - maxlen)

/-- `XREVRANGE key + min COUNT count`: the newest `count` entries with
id ≥ `minId` (all ids when `minId = none`), newest first — the store's
native retrieval order. -/
def xrevrange {α : Type} (store : List (Nat × α)) (minId : Option Nat)
    (count : Nat) : List (Nat × α) :=
  ((store.filter (fun e => match minId with
      | none => true
      | some m => m ≤ e.1)).reverse).take count

/-- `RedisStreamHandler.get_latest_entries`: `xrevrange(max="+",
min=last_id or "-", count=count)[::-1]` — the native newest-first slice,
reversed back to chronological (oldest-first) order. -/
def get_latest_entries {α : Type} (store : List (Nat × α)) (minId : Option Nat)
    (count : Nat) : List (Nat × α) :=
  (xrevrange store minId count).reverse

/-- `RedisStreamHandler.get_latest_frames`: deserialize each entry of
`get_latest_entries` (no `last_id`), silently skipping entries that fail
to deserialize. -/
def get_latest_frames (store : List (Nat × List (String × WireVal)))
    (count : Nat) : List Frame :=
  (get_latest_entries store none count).filterMap (fun e => deserialize_frame e.2)

/-- `RedisStreamHandler.add_frame` with `approximate=False` (exact trim),
the mode `stream_to_redis` uses for the `{room}:realtime` stream:
serialize the frame and `xadd` it with the exact length bound. -/
def add_frame (entries : List (Nat × List (String × WireVal))) (nid : Nat)
    (f : Frame) (maxlen : Nat) : List (Nat × List (String × WireVal)) :=
  xaddTrimExact entries nid (wireify (serialize_frame f)) maxlen

/-- One producer append step of `stream_to_redis`'s realtime path:
`add_frame(frame, key, maxlen, approximate=False)`, with Redis assigning
the next entry id. -/
def stepAdd (maxlen : Nat) (st : List (Nat × List (String × WireVal)) × Nat)
    (f : Frame) : List (Nat × List (String × WireVal)) × Nat :=
  (add_frame st.1 st.2 f maxlen, st.2 + 1)

/-- The realtime stream (and the id counter) after appending a sequence of
frames to an initially empty stream with exact bound `maxlen`. -/
def realtimeAppendAll (frames : List Frame) (maxlen : Nat) :
    List (Nat × List (String × WireVal)) × Nat :=
  frames.foldl (stepAdd maxlen) ([], 0)

/-! ## The inference client (`watcher/watcher.py`, `base_prompt.py`) -/

/-- Leading text of the `base_prompt.py` f-string, before the injected
instruction list. -/
def promptHead : String :=
  "\n        You are given the following instructions: \n        "

/-- Trailing text of the `base_prompt.py` f-string, after the injected
instruction list. -/
def promptTail : String :=
  ".\n\n        If the instructions are violated, you should alert the user.\n        You should also recommend the awareness level based on the image.\n        Please generate a structured response in raw JSON format:\n        - should_alert (boolean)\n        - reasoning (string)\n        - recommended_awareness_level (string; one of: LOW, MEDIUM, HIGH)\n        Always respond in English, regardless of the content in the images.\n        "

/-- Python `sep.join(parts)`. -/
def pyJoin (sep : String) : List String → String
  | [] => ""
  | [x] => x
  | x :: y :: xs => x ++ sep ++ pyJoin sep (y :: xs)

/-- `get_instructions_prompt`: raises `ValueError` on an empty instruction
list, otherwise renders the base prompt with `'\n * '.join(instructions)`
injected. -/
def get_instructions_prompt (instructions : List String) : Except String String :=
  if instructions.length = 0 then .error "Instructions must be a non-empty list"
  else .ok (promptHead ++ pyJoin "\n * " instructions ++ promptTail)

/-- The state `Watcher.__init__` builds (the fields the modelled behavior
reads: the cached instruction prompt and the model name). -/
structure WatcherS where
  instructions_prompt : String
  model_name : String
deriving DecidableEq

/-- `Watcher.__init__`: builds the instruction prompt first, so the
`ValueError` of `get_instructions_prompt` propagates out of construction. -/
def mkWatcher (instructions : List String) (modelName : String) :
    Except String WatcherS :=
  match get_instructions_prompt instructions with
  | .error e => .error e
  | .ok p => .ok ⟨p, modelName⟩

/-- The result dict of `Watcher.process_frames`: either
`{"success": True, "should_alert": ..., "reasoning": ...,
"recommended_awareness_level": ..., "raw_response": ...}` or
`{"success": False, "error": ...}`. -/
inductive ProcResult where
  | success (should_alert : Bool) (reasoning : String)
      (recommended : AwarenessLevel) (raw : String)
  | failure (error : String)
deriving DecidableEq

/-- Outcome of the external vLLM chat-completion call plus pydantic
validation, abstracted as an oracle: a transport/endpoint error (any
exception from the client call), a response that fails `WatcherResponse`
validation, or a validated response. -/
inductive InferOutcome where
  | transportError (msg : String)
  | badResponse (raw : String) (err : String)
  | goodResponse (should_alert : Bool) (reasoning : String)
      (recommended : AwarenessLevel) (raw : String)
deriving DecidableEq

/-- `Watcher.process_frames`: on an empty frame list it returns the dict
`{"success": False, "error": "No frames provided"}` (it does not raise);
otherwise the request is sent and every exception or validation failure is
caught and returned as a `"success": False` dict, a validated response as
a `"success": True` dict. -/
def processFrames (w : WatcherS) (frames : List Frame) (o : InferOutcome) :
    ProcResult :=
  if frames.isEmpty then .failure "No frames provided"
  else
    match o with
    | .transportError m => .failure m
    | .badResponse raw err => .failure (err ++ "\nRaw response: " ++ raw)
    | .goodResponse a r lvl raw => .success a r lvl raw

/-- The timestamp of the last frame of a non-empty tail (`frames[-1]`). -/
def lastTimestamp (f1 : Frame) (rest : List Frame) : DateTime :=
  ((f1 :: rest).getLast (List.cons_ne_nil f1 rest)).timestamp

/-- Round half to even (Python `round` on the exact rational `a / b`,
`b > 0`): `f = ⌊a/b⌋` via floor division, remainder compared against a
half. -/
def roundHalfEven (a b : Int) : Int :=
  let f := Int.fdiv a b
  let r := a - f * b
  if 2 * r < b then f
  else if b < 2 * r then f + 1
  else if f % 2 = 0 then f else f + 1

/-- `Watcher._calculate_fps` with `default_fps` explicit.  A `timedelta`
is exact integer microseconds, so `time_diff = Δμs / 10^6` seconds exactly
and `(len(frames) - 1) / time_diff = (len(frames) - 1) * 10^6 / Δμs`; the
computation is carried out exactly over `Int`, and Python `round` is round
half to even on that exact rational.  The sane band
`fps < 0.02 or fps > 60` on the integer `fps` is `50 * fps < 1 ∨ 60 < fps`
(for integers, `fps < 0.02` iff `fps ≤ 0`). -/
def calculateFps (frames : List Frame) (defaultFps : Int) : Int :=
  match frames with
  | [] => defaultFps
  | [_] => defaultFps
  | f0 :: f1 :: rest =>
    let dμ : Int := toMicro (lastTimestamp f1 rest) - toMicro f0.timestamp
    if dμ ≤ 0 then defaultFps
    else
      let fps := roundHalfEven (((f0 :: f1 :: rest).length - 1 : Nat) * 1000000) dμ
      if 50 * fps < 1 ∨ 60 < fps then defaultFps else fps

/-- The raw rate of `_calculate_fps` before the sane-band check:
`round((len(frames) - 1) / time_diff)` computed on the exact rational
`(count - 1) * 10^6 / Δμs`. -/
def fpsRaw (f0 f1 : Frame) (rest : List Frame) : Int :=
  roundHalfEven (((f0 :: f1 :: rest).length - 1 : Nat) * 1000000)
    (toMicro (lastTimestamp f1 rest) - toMicro f0.timestamp)

/-! ## One orchestrator round (`scripts/run_watcher.py`) -/

/-- A value of a log dict (`time.time()` float timestamp, `int(bool)`
flag, strings). -/
inductive LogVal where
  | num (q : ℚ)
  | int (z : Int)
  | str (s : String)
deriving DecidableEq

/-- The success log entry of a round: `{"timestamp": time.time(),
"should_alert": int(...), "awareness_level": ..., "reasoning": ...}`. -/
def successLogData (t : ℚ) (alert : Bool) (lvl : AwarenessLevel)
    (reasoning : String) : List (String × LogVal) :=
  [("timestamp", .num t),
   ("should_alert", .int (if alert then 1 else 0)),
   ("awareness_level", .str (awStr lvl)),
   ("reasoning", .str reasoning)]

/-- The error log entry of a round: `{"timestamp": time.time(),
"error": error_msg}`. -/
def errorLogData (t : ℚ) (msg : String) : List (String × LogVal) :=
  [("timestamp", .num t), ("error", .str msg)]

/-- The frame sequence `run_watcher` hands to `process_frames`: the
oldest-first output of `get_latest_frames`, reversed once more by the
`frames.reverse()` at `run_watcher.py:79`. -/
def framesSentToInference (store : List (Nat × List (String × WireVal)))
    (count : Nat) : List Frame :=
  (get_latest_frames store count).reverse

/-- One iteration of the `run_watcher` loop: read the latest frames; if
none, just continue; otherwise reverse them, run `process_frames`, and
append exactly one entry to the logs stream — the summary entry on
success (playing the alert sound when `should_alert`), the error entry on
failure.  Returns the logs stream and whether the alert sound was
played. -/
def runRound (store : List (Nat × List (String × WireVal))) (count : Nat)
    (w : WatcherS) (o : InferOutcome) (t : ℚ)
    (logs : List (List (String × LogVal))) :
    List (List (String × LogVal)) × Bool :=
  let frames := get_latest_frames store count
  if frames.isEmpty then (logs, false)
  else
    match processFrames w frames.reverse o with
    | .success a r lvl _ => (logs ++ [successLogData t a lvl r], a)
    | .failure m => (logs ++ [errorLogData t m], false)

/-! ## The legacy awareness update (`ai_baby_monitor/watcher.py`)

`Watcher.watch` computes
`max([r["recommended_awareness_level"] for r in responses] +
[self.current_awareness])`.  The items are either raw JSON values (the
strings parsed out of the model response) or members of the plain `Enum`
`AwarenessLevel` (the current state, and the `MEDIUM` default of
`try_parse_response`).  Plain `Enum` members define no ordering, so every
comparison involving one raises `TypeError`; `max` compares as soon as the
list has two items. -/

/-- A value that can appear in the legacy `max(...)` list: a plain-Enum
`AwarenessLevel` member or a raw JSON string. -/
inductive RecVal where
  | enumM (lvl : AwarenessLevel)
  | pyStr (s : String)
deriving DecidableEq

/-- A Python exception raised by the legacy update. -/
inductive PyErr where
  | typeError (msg : String)
  | valueError (msg : String)
deriving DecidableEq

/-- Python `item > best` on the values of the legacy `max(...)` list:
strings compare lexicographically, every comparison involving a plain
`Enum` member raises `TypeError`. -/
def pyGtRec : RecVal → RecVal → Except PyErr Bool
  | .pyStr a, .pyStr b => .ok (decide (b < a))
  | _, _ => .error (.typeError "unorderable types")

/-- The fold of CPython `max`: keep the current best, replace it whenever
`item > best`. -/
def pyMaxGo (best : RecVal) : List RecVal → Except PyErr RecVal
  | [] => .ok best
  | y :: ys =>
    match pyGtRec y best with
    | .error e => .error e
    | .ok b => pyMaxGo (if b then y else best) ys

/-- CPython `max` on a list: `ValueError` on the empty list, otherwise the
comparison fold (a one-item list needs no comparison). -/
def pyMax : List RecVal → Except PyErr RecVal
  | [] => .error (.valueError "max() arg is an empty sequence")
  | x :: xs => pyMaxGo x xs

/-- The awareness update of `Watcher.watch` (lines 113-118):
`max(recommended_levels + [current_awareness])`. -/
def nextAwarenessOld (current : AwarenessLevel) (recs : List RecVal) :
    Except PyErr RecVal :=
  pyMax (recs ++ [.enumM current])

/-! ## Concrete demonstration data -/

/-- 2023-01-01 12:00:00. -/
def dt0 : DateTime := ⟨2023, 1, 1, 12, 0, 0, 0⟩

/-- 2023-01-01 12:00:01. -/
def dt1 : DateTime := ⟨2023, 1, 1, 12, 0, 1, 0⟩

/-- 2023-01-01 12:00:02. -/
def dt2 : DateTime := ⟨2023, 1, 1, 12, 0, 2, 0⟩

/-- 2023-01-01 12:16:40 (1000 seconds after `dt0`). -/
def dt1000 : DateTime := ⟨2023, 1, 1, 12, 16, 40, 0⟩

/-- 2023-01-01 12:00:00.000100 (0.0001 seconds after `dt0`). -/
def dtMicro : DateTime := ⟨2023, 1, 1, 12, 0, 0, 100⟩

/-- The older demo frame (index 0, captured at `dt0`). -/
def demoFrame0 : Frame := ⟨[10, 20, 30], dt0, 0⟩

/-- The newer demo frame (index 1, captured at `dt1`). -/
def demoFrame1 : Frame := ⟨[40, 50, 60], dt1, 1⟩

/-- A two-entry subsampled stream: entry 0 holds the older frame, entry 1
the newer frame, in append order. -/
def demoStore : List (Nat × List (String × WireVal)) :=
  [(0, wireify (serialize_frame demoFrame0)),
   (1, wireify (serialize_frame demoFrame1))]

/-! ## Round-trip lemmas for rendering and parsing -/

theorem digitChar_spec (d : Nat) (h : d < 10) :
    (digitChar d).isDigit = true ∧ digitVal (digitChar d) = d := by
  interval_cases d <;> exact ⟨rfl, rfl⟩

theorem parseDigits_renderPad (w : Nat) :
    ∀ (n acc : Nat) (rest : List Char), n < 10 ^ w →
      parseDigits w acc (renderPad w n ++ rest) = some (acc * 10 ^ w + n, rest) := by
  induction w with
  | zero =>
    intro n acc rest h
    have hn : n = 0 := by simpa using Nat.lt_one_iff.mp (by simpa using h)
    subst hn
    simp [renderPad, parseDigits]
  | succ w ih =>
    intro n acc rest h
    have hpos : 0 < 10 ^ w := Nat.pos_pow_of_pos w (by norm_num)
    have hd : n / 10 ^ w < 10 := by
      rw [Nat.div_lt_iff_lt_mul hpos]
      calc n < 10 ^ (w + 1) := h
        _ = 10 * 10 ^ w := by ring
    obtain ⟨hdig, hval⟩ := digitChar_spec _ hd
    have hmod : n % 10 ^ w < 10 ^ w := Nat.mod_lt _ hpos
    show parseDigits (w + 1) acc
        ((digitChar (n / 10 ^ w) :: renderPad w (n % 10 ^ w)) ++ rest) = _
    rw [List.cons_append]
    simp only [parseDigits, hdig, if_true, hval]
    rw [ih (n % 10 ^ w) (acc * 10 + n / 10 ^ w) rest hmod]
    have hdm := Nat.div_add_mod n (10 ^ w)
    congr 2
    rw [pow_succ]
    conv_rhs => rw [← hdm]
    ring

theorem parseDigits_renderPad0 (w n : Nat) (rest : List Char) (h : n < 10 ^ w) :
    parseDigits w 0 (renderPad w n ++ rest) = some (n, rest) := by
  simpa using parseDigits_renderPad w n 0 rest h

theorem expectChar_cons_self (c : Char) (t : List Char) :
    expectChar c (c :: t) = some t := by
  simp [expectChar]

theorem parseDigits_renderPad_nil (w n : Nat) (h : n < 10 ^ w) :
    parseDigits w 0 (renderPad w n) = some (n, []) := by
  simpa using parseDigits_renderPad0 w n [] h

theorem daysInMonth_le (y m : Nat) (h : m ≤ 12) : daysInMonth y m ≤ 31 := by
  interval_cases m <;> simp [daysInMonth, List.getD] <;> split <;> omega

/-- `fromisoformat` inverts `isoformat` on every datetime the `datetime`
constructor can produce. -/
theorem fromisoformat_isoformat (d : DateTime) (h : dtValid d) :
    fromisoformat (isoformat d) = some d := by
  obtain ⟨y, mo, da, hh, mi, ss, us⟩ := d
  obtain ⟨h1, h2, h3, h4, h5, h6, h7, h8, h9, h10⟩ :
      1 ≤ y ∧ y ≤ 9999 ∧ 1 ≤ mo ∧ mo ≤ 12 ∧ 1 ≤ da ∧ da ≤ daysInMonth y mo ∧
        hh ≤ 23 ∧ mi ≤ 59 ∧ ss ≤ 59 ∧ us ≤ 999999 := h
  have hda : da ≤ 31 := le_trans h6 (daysInMonth_le y mo h4)
  have hvalid : dtValid ⟨y, mo, da, hh, mi, ss, us⟩ :=
    ⟨h1, h2, h3, h4, h5, h6, h7, h8, h9, h10⟩
  show parseIso (isoChars ⟨y, mo, da, hh, mi, ss, us⟩) = some ⟨y, mo, da, hh, mi, ss, us⟩
  unfold parseIso isoChars
  rw [parseDigits_renderPad0 4 y _ (by omega)]
  dsimp only
  rw [expectChar_cons_self]
  dsimp only
  rw [parseDigits_renderPad0 2 mo _ (by omega)]
  dsimp only
  rw [expectChar_cons_self]
  dsimp only
  rw [parseDigits_renderPad0 2 da _ (by omega)]
  dsimp only
  rw [expectChar_cons_self]
  dsimp only
  rw [parseDigits_renderPad0 2 hh _ (by omega)]
  dsimp only
  rw [expectChar_cons_self]
  dsimp only
  rw [parseDigits_renderPad0 2 mi _ (by omega)]
  dsimp only
  rw [expectChar_cons_self]
  dsimp only
  by_cases hus : us = 0
  · subst hus
    rw [if_pos rfl, List.append_nil]
    rw [parseDigits_renderPad_nil 2 ss (by omega)]
    dsimp only
    unfold mkValidated
    rw [if_pos hvalid]
  · rw [if_neg hus]
    rw [parseDigits_renderPad0 2 ss _ (by omega)]
    dsimp only
    rw [expectChar_cons_self]
    dsimp only
    rw [parseDigits_renderPad_nil 6 us (by omega)]
    dsimp only
    unfold mkValidated
    rw [if_pos hvalid]

theorem parseNatAux_append (r : List Char) :
    ∀ (l : List Char) (acc m : Nat), parseNatAux acc l = some m →
      parseNatAux acc (l ++ r) = parseNatAux m r := by
  intro l
  induction l with
  | nil =>
    intro acc m hm
    simp [parseNatAux] at hm
    subst hm
    simp [parseNatAux]
  | cons c t ih =>
    intro acc m hm
    by_cases hc : c.isDigit
    · simp only [parseNatAux, hc, if_true] at hm
      simp only [List.cons_append, parseNatAux, hc, if_true]
      exact ih _ m hm
    · simp [parseNatAux, hc] at hm

theorem natToCharsAux_succ (fuel n : Nat) :
    natToCharsAux (fuel + 1) n =
      if n < 10 then [digitChar n]
      else natToCharsAux fuel (n / 10) ++ [digitChar (n % 10)] := rfl

theorem natToCharsAux_ne_nil (fuel n : Nat) : natToCharsAux fuel n ≠ [] := by
  cases fuel with
  | zero => simp [natToCharsAux]
  | succ fuel =>
    unfold natToCharsAux
    split
    · simp
    · simp

theorem parseNatAux_natToCharsAux :
    ∀ (fuel n acc : Nat), n ≤ fuel →
      parseNatAux acc (natToCharsAux fuel n) =
        some (acc * 10 ^ (natToCharsAux fuel n).length + n) := by
  intro fuel
  induction fuel with
  | zero =>
    intro n acc h
    have hn : n = 0 := by omega
    subst hn
    simp [natToCharsAux, parseNatAux, digitChar, digitVal]
  | succ fuel ih =>
    intro n acc h
    by_cases hn : n < 10
    · obtain ⟨hdig, hval⟩ := digitChar_spec n hn
      simp [natToCharsAux, hn, parseNatAux, hdig, hval]
    · have hposn : 0 < n := by omega
      have hdiv : n / 10 ≤ fuel := by
        have := Nat.div_lt_self hposn (by norm_num : (1 : Nat) < 10)
        omega
      have hmid := ih (n / 10) acc hdiv
      have hm : n % 10 < 10 := Nat.mod_lt _ (by norm_num)
      obtain ⟨hdig, hval⟩ := digitChar_spec _ hm
      rw [natToCharsAux_succ, if_neg hn]
      rw [parseNatAux_append _ _ _ _ hmid]
      simp only [parseNatAux, hdig, if_true, hval]
      rw [List.length_append, List.length_singleton]
      have key : ∀ L : Nat,
          (acc * 10 ^ L + n / 10) * 10 + n % 10 = acc * 10 ^ (L + 1) + n := by
        intro L
        rw [pow_succ]
        conv_rhs => rw [← Nat.div_add_mod n 10]
        ring
      rw [key]

/-- `int(str(n)) = n`: the model of Python `int` inverts the model of
Python `str` on naturals. -/
theorem pyIntNat_natToString (n : Nat) : pyIntNat (natToString n) = some n := by
  unfold pyIntNat natToString natToChars
  have hne := natToCharsAux_ne_nil n n
  have hspec := parseNatAux_natToCharsAux n n 0 le_rfl
  cases hl : natToCharsAux n n with
  | nil => exact absurd hl hne
  | cons c t =>
    rw [hl] at hspec
    simpa using hspec

/-- Deserializing the wire form of a serialized frame recovers the frame:
the index, the timestamp (exactly, at the microsecond precision `isoformat`
writes) and the payload bytes. -/
theorem deserialize_frame_wireify (f : Frame) (h : dtValid f.timestamp) :
    deserialize_frame (wireify (serialize_frame f)) = some f := by
  obtain ⟨p, t, i⟩ := f
  have ht : dtValid t := h
  show deserialize_frame
      [("frame_bytes", WireVal.binary p),
       ("timestamp", WireVal.text (isoformat t)),
       ("frame_idx", WireVal.text (natToString i))] = some ⟨p, t, i⟩
  simp [deserialize_frame, List.lookup, asText, asBytes,
    fromisoformat_isoformat t ht, pyIntNat_natToString]

/-- Every member of a Python `sep.join(parts)` occurs inside the joined
string. -/
theorem pyJoin_split (sep : String) :
    ∀ (l : List String) (i : String), i ∈ l →
      ∃ A B, pyJoin sep l = A ++ i ++ B := by
  intro l
  induction l with
  | nil => intro i hi; cases hi
  | cons x xs ih =>
    intro i hi
    cases xs with
    | nil =>
      have hx : i = x := by simpa using hi
      subst hx
      exact ⟨"", "", by simp [pyJoin, String.empty_append, String.append_empty]⟩
    | cons y ys =>
      rcases List.mem_cons.mp hi with hx | htail
      · subst hx
        refine ⟨"", sep ++ pyJoin sep (y :: ys), ?_⟩
        simp [pyJoin, String.empty_append, String.append_assoc]
      · obtain ⟨A, B, hAB⟩ := ih i htail
        refine ⟨x ++ sep ++ A, B, ?_⟩
        simp [pyJoin, hAB, String.append_assoc]

/-- Length of one exact-trim append: grows by one until the bound, then
stays at the bound. -/
theorem xaddTrimExact_length {α : Type} (entries : List (Nat × α)) (nid : Nat)
    (d : α) (maxlen : Nat) :
    (xaddTrimExact entries nid d maxlen).length = min (entries.length + 1) maxlen := by
  unfold xaddTrimExact
  simp only [List.length_drop, List.length_append, List.length_singleton]
  omega

/-- Length invariant of the realtime append fold. -/
theorem foldl_stepAdd_length (B : Nat) :
    ∀ (fs : List Frame) (st : List (Nat × List (String × WireVal)) × Nat),
      st.1.length ≤ B →
      (fs.foldl (stepAdd B) st).1.length = min (st.1.length + fs.length) B := by
  intro fs
  induction fs with
  | nil =>
    intro st h
    simp
    omega
  | cons f t ih =>
    intro st h
    rw [List.foldl_cons]
    have h1 : (stepAdd B st f).1.length = min (st.1.length + 1) B := by
      show (add_frame st.1 st.2 f B).length = _
      unfold add_frame
      exact xaddTrimExact_length _ _ _ _
    rw [ih (stepAdd B st f) (by rw [h1]; omega), h1]
    simp only [List.length_cons]
    omega

/-! ## The claims -/

/-- Claim C1.  The claim states that the frame batch `run_watcher` passes
to `process_frames` is in chronological order, oldest first.  On the code
this fails: `get_latest_frames` already returns oldest-first (it reverses
the newest-first `xrevrange` output, as its docstring and
`test_get_latest_entries` document), and `run_watcher.py:79` reverses that
again, so `process_frames` receives the batch newest first.  This theorem
evaluates the code path on a two-frame store: the frame with the larger
index and the later capture timestamp comes first. -/
theorem c1_frames_sent_newest_first :
    framesSentToInference demoStore 2 = [demoFrame1, demoFrame0] ∧
    demoFrame0.frame_idx < demoFrame1.frame_idx ∧
    toMicro demoFrame0.timestamp < toMicro demoFrame1.timestamp := by
  decide

/-- Claim C2.  For every stream whose entries carry strictly increasing
entry ids in append order (as Redis assigns them), every lower bound and
every count, `get_latest_entries` returns entries in strictly increasing
entry-id order (oldest first), and reversing its result reproduces the
store's native newest-first `xrevrange` order. -/
theorem c2_read_latest_ordering :
    ∀ (α : Type) (store : List (Nat × α)) (minId : Option Nat) (count : Nat),
      store.Pairwise (fun a b => a.1 < b.1) →
      (get_latest_entries store minId count).Pairwise (fun a b => a.1 < b.1) ∧
        (get_latest_entries store minId count).reverse = xrevrange store minId count := by
  intro α store minId count h
  constructor
  · unfold get_latest_entries xrevrange
    rw [List.pairwise_reverse]
    refine List.Pairwise.sublist (List.take_sublist _ _) ?_
    rw [List.pairwise_reverse]
    exact List.Pairwise.sublist (List.filter_sublist _) h
  · exact List.reverse_reverse _

/-- Witness for C2 on a concrete two-entry store. -/
theorem c2_read_latest_ordering_witness :
    ([((0 : Nat), "a"), (1, "b")]).Pairwise (fun a b => a.1 < b.1) ∧
      ((get_latest_entries [((0 : Nat), "a"), (1, "b")] none 2).Pairwise
          (fun a b => a.1 < b.1) ∧
        (get_latest_entries [((0 : Nat), "a"), (1, "b")] none 2).reverse =
          xrevrange [((0 : Nat), "a"), (1, "b")] none 2) :=
  ⟨by decide, c2_read_latest_ordering String [(0, "a"), (1, "b")] none 2 (by decide)⟩

/-- Claim C3.  For every frame with a non-empty payload (and a timestamp
the `datetime` constructor can produce), deserializing the byte-typed wire
form of `serialize_frame` returns a frame equal to the original in index,
timestamp (at the microsecond precision `isoformat` serializes) and
payload bytes. -/
theorem c3_serialize_roundtrip :
    ∀ f : Frame, dtValid f.timestamp → f.frame_data ≠ [] →
      deserialize_frame (wireify (serialize_frame f)) = some f :=
  fun f h _ => deserialize_frame_wireify f h

/-- Witness for C3 on a concrete frame. -/
theorem c3_serialize_roundtrip_witness :
    dtValid demoFrame0.timestamp ∧ demoFrame0.frame_data ≠ [] ∧
      deserialize_frame (wireify (serialize_frame demoFrame0)) = some demoFrame0 :=
  ⟨by decide, by decide, c3_serialize_roundtrip demoFrame0 (by decide) (by decide)⟩

/-- Claim C4.  For every sequence of appends with exact trimming
(`approximate=False`, the realtime-stream mode) and every bound `B`, the
stream length observed after each append — i.e. after every prefix of the
append sequence — is `min(appends so far, B)`, and in particular never
exceeds `B`. -/
theorem c4_exact_trim_bound :
    ∀ (frames : List Frame) (B k : Nat), k ≤ frames.length →
      (realtimeAppendAll (frames.take k) B).1.length = min k B ∧
        (realtimeAppendAll (frames.take k) B).1.length ≤ B := by
  intro frames B k hk
  have h := foldl_stepAdd_length B (frames.take k) ([], 0) (by simp)
  unfold realtimeAppendAll
  rw [h, List.length_take]
  constructor
  · simp only [List.length_nil, Nat.zero_add]
    omega
  · simp only [List.length_nil, Nat.zero_add]
    omega

/-- Witness for C4: four appends against bound 3 leave exactly 3 entries. -/
theorem c4_exact_trim_bound_witness :
    (4 : Nat) ≤ ([demoFrame0, demoFrame1, demoFrame0, demoFrame1] : List Frame).length ∧
      ((realtimeAppendAll ([demoFrame0, demoFrame1, demoFrame0, demoFrame1].take 4) 3).1.length =
          min 4 3 ∧
        (realtimeAppendAll ([demoFrame0, demoFrame1, demoFrame0, demoFrame1].take 4) 3).1.length ≤ 3) :=
  ⟨by decide, c4_exact_trim_bound [demoFrame0, demoFrame1, demoFrame0, demoFrame1] 3 4 (by decide)⟩

/-- Claim C5.  The claim states the next awareness level is the maximum,
under LOW < MEDIUM < HIGH, of the current level and every recommendation
of the round.  That is clearly the intent of
`ai_baby_monitor/watcher.py:113-118` (`max(recommended + [current])`, over
an enum whose values 1, 2, 3 encode exactly that order), but the code is
broken: `AwarenessLevel` is a plain `Enum`, which defines no order, so as
soon as the round has at least one recommendation the `max` call raises
`TypeError` instead of producing a next level — here evaluated on the
spec's own example, current = LOW with recommendations {MEDIUM, LOW}. -/
theorem c5_legacy_max_typeerror :
    nextAwarenessOld .LOW [.enumM .MEDIUM, .enumM .LOW] =
      Except.error (PyErr.typeError "unorderable types") := rfl

/-- Claim C6.  The effective sampling rate equals
`round((count - 1) / elapsed)` — computed here on the exact rational
`(count - 1)·10⁶ / Δμs`, with `round` as Python's round half to even —
whenever there are at least 2 frames, the elapsed time is positive and the
rounded result lies inside the sane band (`0.02 ≤ fps ≤ 60`, which for an
integer is `1 ≤ 50·fps ∧ fps ≤ 60`); otherwise (fewer than 2 frames,
non-positive elapsed time, result too low or implausibly high) it equals
the default rate.  The four concrete cases: 3 frames one second apart give
1; 2 coincident frames give the default; 2 frames 1000 s apart give the
default (too low); 2 frames 0.0001 s apart give the default (too high). -/
theorem c6_calculate_fps_spec :
    (∀ (frames : List Frame) (d : Int), frames.length < 2 →
        calculateFps frames d = d) ∧
    (∀ (f0 f1 : Frame) (rest : List Frame) (d : Int),
        toMicro (lastTimestamp f1 rest) - toMicro f0.timestamp ≤ 0 →
        calculateFps (f0 :: f1 :: rest) d = d) ∧
    (∀ (f0 f1 : Frame) (rest : List Frame) (d : Int),
        0 < toMicro (lastTimestamp f1 rest) - toMicro f0.timestamp →
        1 ≤ 50 * fpsRaw f0 f1 rest → fpsRaw f0 f1 rest ≤ 60 →
        calculateFps (f0 :: f1 :: rest) d = fpsRaw f0 f1 rest) ∧
    (∀ (f0 f1 : Frame) (rest : List Frame) (d : Int),
        0 < toMicro (lastTimestamp f1 rest) - toMicro f0.timestamp →
        (50 * fpsRaw f0 f1 rest < 1 ∨ 60 < fpsRaw f0 f1 rest) →
        calculateFps (f0 :: f1 :: rest) d = d) ∧
    calculateFps [⟨[], dt0, 0⟩, ⟨[], dt1, 1⟩, ⟨[], dt2, 2⟩] 2 = 1 ∧
    calculateFps [⟨[], dt0, 0⟩, ⟨[], dt0, 1⟩] 2 = 2 ∧
    calculateFps [⟨[], dt0, 0⟩, ⟨[], dt1000, 1⟩] 2 = 2 ∧
    calculateFps [⟨[], dt0, 0⟩, ⟨[], dtMicro, 1⟩] 2 = 2 := by
  refine ⟨?_, ?_, ?_, ?_, by decide, by decide, by decide, by decide⟩
  · intro frames d h
    cases frames with
    | nil => rfl
    | cons f0 t =>
      cases t with
      | nil => rfl
      | cons f1 r =>
        exfalso
        simp only [List.length_cons] at h
        omega
  · intro f0 f1 rest d h
    simp only [calculateFps]
    rw [if_pos h]
  · intro f0 f1 rest d h h1 h2
    unfold fpsRaw at h1 h2
    simp only [calculateFps]
    rw [if_neg (by omega), if_neg (by omega)]
    rfl
  · intro f0 f1 rest d h hband
    unfold fpsRaw at hband
    simp only [calculateFps]
    rw [if_neg (by omega), if_pos hband]

/-- Witness for C6: no frames means the default rate. -/
theorem c6_calculate_fps_spec_witness :
    (([] : List Frame).length < 2) ∧ calculateFps ([] : List Frame) 0 = 0 :=
  ⟨by decide, c6_calculate_fps_spec.1 [] 0 (by decide)⟩

/-- Claim C7, counterexample.  The claim states `process_frames([])` is
rejected as a precondition violation rather than returning an ordinary
Failure object.  On the code this fails: the empty list returns the same
`{"success": False, "error": ...}` dict shape that a transient inference
failure returns, as this evaluation shows side by side. -/
theorem c7_empty_frames_is_failure_value :
    processFrames ⟨"prompt", "model"⟩ [] (.transportError "boom") =
        ProcResult.failure "No frames provided" ∧
      processFrames ⟨"prompt", "model"⟩ [demoFrame0] (.transportError "boom") =
        ProcResult.failure "boom" :=
  ⟨rfl, rfl⟩

/-- Claim C7, amended.  Calling `process_frames` with an empty frame list
returns the ordinary Failure dict `{"success": False, "error": "No frames
provided"}` without attempting inference — the same Failure shape used for
transient inference failures — rather than raising a precondition
violation. -/
theorem c7_empty_frames_failure_amended :
    ∀ (w : WatcherS) (o : InferOutcome),
      processFrames w [] o = ProcResult.failure "No frames provided" :=
  fun _ _ => rfl

/-- Claim C8.  `deserialize_frame` returns `none` (it never raises: it is
total into `Option`) on every entry missing a required field, on every
entry whose timestamp bytes do not decode/parse, and on every entry whose
index bytes do not decode/parse; and on well-formed entries it tolerates
the byte-typed values of the wire, recovering the frame. -/
theorem c8_deserialize_rejects :
    ∀ (e : List (String × WireVal)),
      ((List.lookup "frame_bytes" e = none ∨ List.lookup "timestamp" e = none ∨
          List.lookup "frame_idx" e = none) → deserialize_frame e = none) ∧
      (∀ v, List.lookup "timestamp" e = some v →
          (asText v).bind fromisoformat = none → deserialize_frame e = none) ∧
      (∀ v, List.lookup "frame_idx" e = some v →
          (asText v).bind pyIntNat = none → deserialize_frame e = none) ∧
      (∀ f : Frame, dtValid f.timestamp → e = wireify (serialize_frame f) →
          deserialize_frame e = some f) := by
  intro e
  refine ⟨?_, ?_, ?_, ?_⟩
  · rintro (hfb | hts | hfi)
    · simp [deserialize_frame, hfb]
    · cases hfb : List.lookup "frame_bytes" e with
      | none => simp [deserialize_frame, hfb]
      | some vb => simp [deserialize_frame, hfb, hts]
    · cases hfb : List.lookup "frame_bytes" e with
      | none => simp [deserialize_frame, hfb]
      | some vb =>
        cases hts : List.lookup "timestamp" e with
        | none => simp [deserialize_frame, hfb, hts]
        | some vt =>
          cases hat : asText vt with
          | none => simp [deserialize_frame, hfb, hts, hat]
          | some s =>
            cases hpt : fromisoformat s with
            | none => simp [deserialize_frame, hfb, hts, hat, hpt]
            | some t => simp [deserialize_frame, hfb, hts, hat, hpt, hfi]
  · intro v hv hbind
    cases hfb : List.lookup "frame_bytes" e with
    | none => simp [deserialize_frame, hfb]
    | some vb =>
      cases hat : asText v with
      | none => simp [deserialize_frame, hfb, hv, hat]
      | some s =>
        have hpt : fromisoformat s = none := by simpa [hat] using hbind
        simp [deserialize_frame, hfb, hv, hat, hpt]
  · intro v hv hbind
    cases hfb : List.lookup "frame_bytes" e with
    | none => simp [deserialize_frame, hfb]
    | some vb =>
      cases hts : List.lookup "timestamp" e with
      | none => simp [deserialize_frame, hfb, hts]
      | some vt =>
        cases hat : asText vt with
        | none => simp [deserialize_frame, hfb, hts, hat]
        | some s =>
          cases hpt : fromisoformat s with
          | none => simp [deserialize_frame, hfb, hts, hat, hpt]
          | some t =>
            cases hati : asText v with
            | none => simp [deserialize_frame, hfb, hts, hat, hpt, hv, hati]
            | some si =>
              have hpi : pyIntNat si = none := by simpa [hati] using hbind
              simp [deserialize_frame, hfb, hts, hat, hpt, hv, hati, hpi]
  · intro f hvf hef
    subst hef
    exact deserialize_frame_wireify f hvf

/-- Witness for C8: the empty entry is missing every field and
deserializes to `none`. -/
theorem c8_deserialize_rejects_witness :
    List.lookup "frame_bytes" ([] : List (String × WireVal)) = none ∧
      deserialize_frame ([] : List (String × WireVal)) = none :=
  ⟨by decide, (c8_deserialize_rejects []).1 (Or.inl (by decide))⟩

/-- Claim C9.  Every orchestrator round that obtained a non-empty frame
batch appends exactly one entry to the logs stream — the round-summary
entry (timestamp, alert flag, awareness level, reasoning) when inference
succeeded, the error entry carrying the error message when it failed;
never zero and never more than one. -/
theorem c9_one_log_entry_per_round :
    ∀ (store : List (Nat × List (String × WireVal))) (count : Nat)
      (w : WatcherS) (o : InferOutcome) (t : ℚ)
      (logs : List (List (String × LogVal))),
      get_latest_frames store count ≠ [] →
      ∃ d, (runRound store count w o t logs).1 = logs ++ [d] ∧
        (runRound store count w o t logs).1.length = logs.length + 1 ∧
        ((∃ a r lvl raw,
            processFrames w (get_latest_frames store count).reverse o =
              ProcResult.success a r lvl raw ∧ d = successLogData t a lvl r) ∨
         (∃ m,
            processFrames w (get_latest_frames store count).reverse o =
              ProcResult.failure m ∧ d = errorLogData t m)) := by
  intro store count w o t logs hne
  have hie : (get_latest_frames store count).isEmpty = false := by
    cases hgl : get_latest_frames store count with
    | nil => exact absurd hgl hne
    | cons a tl => rfl
  cases hp : processFrames w ((get_latest_frames store count).reverse) o with
  | success sa r lvl raw =>
    refine ⟨successLogData t sa lvl r, ?_, ?_, Or.inl ⟨sa, r, lvl, raw, rfl, rfl⟩⟩
    · simp [runRound, hie, hp]
    · simp [runRound, hie, hp]
  | failure m =>
    refine ⟨errorLogData t m, ?_, ?_, Or.inr ⟨m, rfl, rfl⟩⟩
    · simp [runRound, hie, hp]
    · simp [runRound, hie, hp]

/-- Witness for C9 on the concrete two-frame store with a failing
inference call. -/
theorem c9_one_log_entry_per_round_witness :
    get_latest_frames demoStore 2 ≠ [] ∧
      ∃ d, (runRound demoStore 2 ⟨"prompt", "model"⟩ (.transportError "boom") 0 []).1 =
            [] ++ [d] ∧
        (runRound demoStore 2 ⟨"prompt", "model"⟩ (.transportError "boom") 0 []).1.length =
            ([] : List (List (String × LogVal))).length + 1 ∧
        ((∃ a r lvl raw,
            processFrames ⟨"prompt", "model"⟩ (get_latest_frames demoStore 2).reverse
                (.transportError "boom") = ProcResult.success a r lvl raw ∧
              d = successLogData 0 a lvl r) ∨
         (∃ m,
            processFrames ⟨"prompt", "model"⟩ (get_latest_frames demoStore 2).reverse
                (.transportError "boom") = ProcResult.failure m ∧
              d = errorLogData 0 m)) :=
  ⟨by decide,
    c9_one_log_entry_per_round demoStore 2 ⟨"prompt", "model"⟩
      (.transportError "boom") 0 [] (by decide)⟩

/-- Claim C10.  Constructing the `Watcher` with an empty instruction list
raises the `ValueError` of `get_instructions_prompt` instead of producing
a client; with any non-empty instruction list construction succeeds and
the rendered instruction prompt contains each instruction. -/
theorem c10_init_instructions :
    (∀ m, mkWatcher [] m = Except.error "Instructions must be a non-empty list") ∧
      ∀ (l : List String) (m : String), l ≠ [] →
        ∃ w, mkWatcher l m = Except.ok w ∧
          ∀ i ∈ l, ∃ A B, w.instructions_prompt = A ++ i ++ B := by
  constructor
  · intro m; rfl
  · intro l m hl
    have hlen : l.length ≠ 0 := fun h0 => hl (List.length_eq_zero.mp h0)
    refine ⟨⟨promptHead ++ pyJoin "\n * " l ++ promptTail, m⟩, ?_, ?_⟩
    · unfold mkWatcher get_instructions_prompt
      rw [if_neg hlen]
    · intro i hi
      obtain ⟨A, B, hAB⟩ := pyJoin_split "\n * " l i hi
      refine ⟨promptHead ++ A, B ++ promptTail, ?_⟩
      show promptHead ++ pyJoin "\n * " l ++ promptTail = _
      rw [hAB]
      simp [String.append_assoc]

/-- Witness for C10 on a one-instruction list. -/
theorem c10_init_instructions_witness :
    (["watch the baby"] : List String) ≠ [] ∧
      ∃ w, mkWatcher ["watch the baby"] "model" = Except.ok w ∧
        ∀ i ∈ (["watch the baby"] : List String),
          ∃ A B, w.instructions_prompt = A ++ i ++ B :=
  ⟨by decide, (c10_init_instructions).2 ["watch the baby"] "model" (by decide)⟩

end ABM
